import Mathlib

/-!
# Verification of the EV charging-data processing pipeline

A shallow embedding of `Codes/data_processing.py` (class `EVDataProcessor`).
Table cells are modelled by the inductive type `Cell`; pandas/NumPy missing
values (`None` / float NaN / NaT) are represented by `Cell.missing`.
Python text is modelled as `String` (operated on through `List Char`), Python
floats by `ℚ` (every numeric literal appearing in the claims is exactly
representable), and fatal pandas exceptions by `Option`-valued stages
(`none` = the exception aborts the run).

Python string primitives used by the source are modelled character-exactly
for ASCII data (the categorical vocabulary of this dataset is ASCII):
`str.strip`, `str.lower`, `re.sub(r"[#]+$", "", s)`, `re.sub(r"\s+", " ", s)`,
`str.split(" ")`, `Series.str.replace` with a literal single-character
pattern, and `float(...)` on plain decimal literals.
-/

/- The Batteries rational-number operations are `@[irreducible]`, which
blocks `decide` on concrete rational arithmetic; restore the default
reducibility inside this file so concrete pipeline runs evaluate. -/
attribute [local semireducible] Rat.mul Rat.add Rat.sub Rat.inv Rat.ofScientific

/-- Whitespace as recognised by Python's `str.strip` / `\s` for ASCII input. -/
def isPySpace (c : Char) : Bool :=
  c = ' ' || c = '\t' || c = '\n' || c = '\r' || c = '\x0b' || c = '\x0c'

/-- ASCII model of Python `str.lower` on a single character. -/
def lowerChar (c : Char) : Char :=
  if h : 65 ≤ c.toNat ∧ c.toNat ≤ 90 then
    Char.ofNatAux (c.toNat + 32) (Or.inl (by omega))
  else c

/-- ASCII model of Python `str.lower`. -/
def lowerList (l : List Char) : List Char := l.map lowerChar

/-- Remove trailing whitespace (the right half of Python `str.strip`). -/
def stripR : List Char → List Char
  | [] => []
  | c :: r =>
    match stripR r with
    | [] => if isPySpace c then [] else [c]
    | r2 => c :: r2

/-- Python `str.strip`: drop leading and trailing whitespace. -/
def pyStrip (l : List Char) : List Char := stripR (l.dropWhile isPySpace)

/-- `re.sub(r"[#]+$", "", s)`: remove one-or-more trailing `#` characters. -/
def dropTrailHash (l : List Char) : List Char :=
  ((l.reverse).dropWhile (fun c => c = '#')).reverse

/-- Worker for `collapseWS`; the flag records whether the previous character
was part of a whitespace run already emitted as a single space. -/
def collapseAux : Bool → List Char → List Char
  | _, [] => []
  | inRun, c :: r =>
    if isPySpace c then
      if inRun then collapseAux true r else ' ' :: collapseAux true r
    else c :: collapseAux false r

/-- `re.sub(r"\s+", " ", s)`: each maximal whitespace run becomes one space. -/
def collapseWS (l : List Char) : List Char := collapseAux false l

/-- Python `str.split(sep)` for a one-character separator (keeps empty
pieces; the split of `""` is `[""]`, as in Python). -/
def splitOnChar (sep : Char) : List Char → List (List Char)
  | [] => [[]]
  | a :: r =>
    match splitOnChar sep r with
    | [] => [[a]]
    | h :: t => if a = sep then [] :: h :: t else (a :: h) :: t

/-- All characters are ASCII decimal digits. -/
def allDigits (l : List Char) : Bool := l.all Char.isDigit

/-- Numeric value of a digit string. -/
def digitsVal (l : List Char) : Nat :=
  l.foldl (fun a c => a * 10 + (c.toNat - 48)) 0

/-- A table cell.  `missing` stands for `None` / NaN / NaT, `str` for Python
strings, `num` for floats (exactly representable data only), `date` and
`time` for the `datetime.date` / `datetime.time` objects produced by the
datetime stage. -/
inductive Cell where
  | missing : Cell
  | str : String → Cell
  | num : ℚ → Cell
  | date : Nat → Nat → Nat → Cell
  | time : Nat → Nat → Nat → Cell
deriving DecidableEq

/-- Whether a cell is a pandas missing value (`isna`). -/
def Cell.isMissing : Cell → Bool
  | .missing => true
  | _ => false

/-- Python `str(x)` for a cell, as used by `Series.astype(str)` and
`_normalize_text`.  `str(np.nan) = "nan"`.  The numeric/date/time
representations are rough (the pipeline only ever applies this to string or
missing cells). -/
def Cell.pyStr : Cell → String
  | .missing => "nan"
  | .str s => s
  | .num q => toString q
  | .date y m d => toString y ++ "-" ++ toString m ++ "-" ++ toString d
  | .time h mi s => toString h ++ ":" ++ toString mi ++ ":" ++ toString s

/-- The text part of `EVDataProcessor._normalize_text` after the `None`/NaN
short-circuits: strip + lowercase, then the `"nan"` check, then trailing-`#`
removal with a second strip, then whitespace collapsing.  `none` is the
`np.nan` returned for the `"nan"` string. -/
def normChars (l : List Char) : Option (List Char) :=
  let s := lowerList (pyStrip l)
  if s = "nan".data then none
  else some (collapseWS (pyStrip (dropTrailHash s)))

/-- `EVDataProcessor._normalize_text` on a cell. -/
def normalizeCell : Cell → Cell
  | .missing => .missing
  | x =>
    match normChars x.pyStr.data with
    | none => .missing
    | some t => .str ⟨t⟩

/-- Step 1 of `_clean_categorical_column`: `fillna("Unknown")`. -/
def fillCell : Cell → Cell
  | .missing => .str "Unknown"
  | x => x

/-- `EVDataProcessor._apply_aliases` on one cell: `Series.replace(aliases)`
replaces exact matches and leaves everything else unchanged. -/
def aliasCell (aliases : List (String × String)) : Cell → Cell
  | .str s =>
    match aliases.lookup s with
    | some v => .str v
    | none => .str s
  | x => x

/-- `EVDataProcessor._to_canonical` on one cell: missing is preserved,
`canon.get(v, v)` otherwise. -/
def canonCell (canon : List (String × String)) : Cell → Cell
  | .str s =>
    match canon.lookup s with
    | some v => .str v
    | none => .str s
  | x => x

/-- Step 5 of `_clean_categorical_column`:
`.replace("unknown", np.nan).replace("Unknown", np.nan)`. -/
def unknownToMissing : Cell → Cell
  | .str s => if s = "unknown" ∨ s = "Unknown" then .missing else .str s
  | x => x

/-- `EVDataProcessor._clean_categorical_column` on one cell (the pandas code
is cell-wise: fillna, normalize, aliases, canonical, unknown-to-NaN). -/
def cleanCell (aliases canon : List (String × String)) (x : Cell) : Cell :=
  unknownToMissing (canonCell canon (aliasCell aliases (normalizeCell (fillCell x))))

/-- `self.VEHICLE_ALIASES`. -/
def VEHICLE_ALIASES : List (String × String) :=
  [("audi e-tro", "audi e-tron"),
   ("tesla model", "tesla model 3"),
   ("chevy bol", "chevy bolt"),
   ("nissan lea", "nissan leaf"),
   ("hyundai kon", "hyundai kona")]

/-- `self.LOCATION_ALIASES`. -/
def LOCATION_ALIASES : List (String × String) :=
  [("los angele", "los angeles"),
   ("new yor", "new york"),
   ("san francisc", "san francisco"),
   ("chicag", "chicago"),
   ("seattl", "seattle")]

/-- `self.TIME_ALIASES`. -/
def TIME_ALIASES : List (String × String) :=
  [("mornin", "morning"),
   ("afternoo", "afternoon"),
   ("evenin", "evening"),
   ("nigh", "night")]

/-- `self.DAY_ALIASES`. -/
def DAY_ALIASES : List (String × String) :=
  [("monda", "monday"),
   ("tuesda", "tuesday"),
   ("wednesda", "wednesday"),
   ("thursda", "thursday"),
   ("frida", "friday"),
   ("saturda", "saturday"),
   ("sunda", "sunday")]

/-- `self.CHARGER_ALIASES`. -/
def CHARGER_ALIASES : List (String × String) :=
  [("dc fast charge", "dc fast charger")]

/-- `self.USER_ALIASES`. -/
def USER_ALIASES : List (String × String) :=
  [("commute", "commuter"),
   ("long-distance travele", "long distance traveler"),
   ("long-distance traveler", "long distance traveler")]

/-- `self.VEHICLE_CANON`. -/
def VEHICLE_CANON : List (String × String) :=
  [("tesla model 3", "Tesla Model 3"),
   ("chevy bolt", "Chevy Bolt"),
   ("nissan leaf", "Nissan Leaf"),
   ("hyundai kona", "Hyundai Kona"),
   ("audi e-tron", "Audi e-Tron")]

/-- `self.LOCATION_CANON`. -/
def LOCATION_CANON : List (String × String) :=
  [("los angeles", "Los Angeles"),
   ("new york", "New York"),
   ("san francisco", "San Francisco"),
   ("chicago", "Chicago"),
   ("seattle", "Seattle")]

/-- `self.TIME_CANON`. -/
def TIME_CANON : List (String × String) :=
  [("morning", "Morning"),
   ("afternoon", "Afternoon"),
   ("evening", "Evening"),
   ("night", "Night")]

/-- `self.DAY_CANON`. -/
def DAY_CANON : List (String × String) :=
  [("monday", "Monday"),
   ("tuesday", "Tuesday"),
   ("wednesday", "Wednesday"),
   ("thursday", "Thursday"),
   ("friday", "Friday"),
   ("saturday", "Saturday"),
   ("sunday", "Sunday")]

/-- `self.CHARGER_CANON`. -/
def CHARGER_CANON : List (String × String) :=
  [("level 1", "Level 1"),
   ("level 2", "Level 2"),
   ("dc fast charger", "Dc Fast Charger"),
   ("level", "Level")]

/-- `self.USER_CANON`. -/
def USER_CANON : List (String × String) :=
  [("commuter", "Commuter"),
   ("long distance traveler", "Long Distance Traveler")]

/-- The six (alias, canonical) dictionary pairs, in the order the columns are
cleaned by `clean_categoricals_auto`. -/
def aliasCanonPairs : List (List (String × String) × List (String × String)) :=
  [(VEHICLE_ALIASES, VEHICLE_CANON),
   (LOCATION_ALIASES, LOCATION_CANON),
   (TIME_ALIASES, TIME_CANON),
   (DAY_ALIASES, DAY_CANON),
   (CHARGER_ALIASES, CHARGER_CANON),
   (USER_ALIASES, USER_CANON)]

/-- The normalize → alias → canonical chain of `_clean_categorical_column`
applied to one raw text value (steps 2-4; no missing-fill involved for a
present value). -/
def aliasCanonChain (aliases canon : List (String × String)) (raw : String) : Cell :=
  canonCell canon (aliasCell aliases (normalizeCell (.str raw)))

/-- A table row after `load`, `rename_columns` and `drop_user_id` (the
internal column names of the rename table).  `others` collects the remaining
numeric columns (battery capacity, energy, rate, distance, temperature,
vehicle age), which no later stage touches. -/
structure Row where
  vehicleModel : Cell
  chargingStationLocation : Cell
  timeOfDay : Cell
  dayOfWeek : Cell
  chargerType : Cell
  userType : Cell
  chargingStartTime : Cell
  chargingEndTime : Cell
  stateOfChargeStartPct : Cell
  stateOfChargeEndPct : Cell
  chargingCostUSD : Cell
  chargingStationId : Cell
  chargingDurationHours : Cell
  others : List Cell
deriving DecidableEq

/-- A row after `process_datetime_columns` (combined timestamps replaced by
the four date/time columns, already under their renamed final names). -/
structure SplitRow where
  vehicleModel : Cell
  chargingStationLocation : Cell
  timeOfDay : Cell
  dayOfWeek : Cell
  chargerType : Cell
  userType : Cell
  chargingStartDate : Cell
  chargingStartTime : Cell
  chargingEndDate : Cell
  chargingEndTime : Cell
  stateOfChargeStartPct : Cell
  stateOfChargeEndPct : Cell
  chargingCostUSD : Cell
  chargingStationId : Cell
  chargingDurationHours : Cell
  others : List Cell
deriving DecidableEq

/-- A row after `clean_symbols_and_features`. -/
structure FinalRow where
  vehicleModel : Cell
  chargingStationLocation : Cell
  timeOfDay : Cell
  dayOfWeek : Cell
  chargerType : Cell
  userType : Cell
  chargingStartDate : Cell
  chargingStartTime : Cell
  chargingEndDate : Cell
  chargingEndTime : Cell
  stateOfChargeStartPct : Cell
  stateOfChargeEndPct : Cell
  chargingCostUSD : Cell
  chargingStationId : Cell
  chargingDurationHours : Cell
  chargeDifferencePct : Cell
  chargingDurationMinutes : Cell
  others : List Cell
deriving DecidableEq

/-- `clean_categoricals_auto` on one row: each of the six categorical
columns is cleaned with its own dictionaries. -/
def cleanRow (r : Row) : Row :=
  { r with
    vehicleModel := cleanCell VEHICLE_ALIASES VEHICLE_CANON r.vehicleModel
    chargingStationLocation :=
      cleanCell LOCATION_ALIASES LOCATION_CANON r.chargingStationLocation
    timeOfDay := cleanCell TIME_ALIASES TIME_CANON r.timeOfDay
    dayOfWeek := cleanCell DAY_ALIASES DAY_CANON r.dayOfWeek
    chargerType := cleanCell CHARGER_ALIASES CHARGER_CANON r.chargerType
    userType := cleanCell USER_ALIASES USER_CANON r.userType }

/-- `clean_categoricals_auto` on the table. -/
def clean_categoricals_auto (t : List Row) : List Row := t.map cleanRow

/-- Whether `df.isna().any(axis=1)` holds for a row (some column missing). -/
def rowHasNA (r : Row) : Bool :=
  r.vehicleModel.isMissing || r.chargingStationLocation.isMissing ||
  r.timeOfDay.isMissing || r.dayOfWeek.isMissing ||
  r.chargerType.isMissing || r.userType.isMissing ||
  r.chargingStartTime.isMissing || r.chargingEndTime.isMissing ||
  r.stateOfChargeStartPct.isMissing || r.stateOfChargeEndPct.isMissing ||
  r.chargingCostUSD.isMissing || r.chargingStationId.isMissing ||
  r.chargingDurationHours.isMissing || r.others.any Cell.isMissing

/-- `handle_missing_and_dropna`: the printed reports do not mutate the table;
the only mutation is `self.df = self.df.dropna()`, which removes every row
containing at least one missing value. -/
def handle_missing_and_dropna (t : List Row) : List Row :=
  t.filter (fun r => !rowHasNA r)

/-- `series.str.split(" ").str[i]` on one cell: the pandas `.str` accessor
yields NaN on non-string cells, and `.str[i]` yields NaN when the split has
no part `i` (e.g. no space in the string and `i = 1`). -/
def Cell.splitPart (x : Cell) (i : Nat) : Cell :=
  match x with
  | .str s =>
    match (splitOnChar ' ' s.data)[i]? with
    | some t => .str ⟨t⟩
    | none => .missing
  | _ => .missing

/-- `series.str.replace(r"\..*$", "", regex=True)` on one cell: remove
everything from the first `.` on (fractional seconds); NaN passes through. -/
def dropFracCell : Cell → Cell
  | .str s => .str ⟨s.data.takeWhile (fun c => c ≠ '.')⟩
  | x => x

/-- Date parsing done by `pd.to_datetime(...)` on the date tokens, modelled
for the ISO `YYYY-MM-DD` layout of this dataset (year, month in 1..12, day
valid for the month).  `none` models the exception raised for an
unparseable non-missing token. -/
def parseDate (s : String) : Option (Nat × Nat × Nat) :=
  match splitOnChar '-' s.data with
  | [ys, ms, ds] =>
    if ys ≠ [] ∧ allDigits ys ∧
       ms ≠ [] ∧ ms.length ≤ 2 ∧ allDigits ms ∧
       ds ≠ [] ∧ ds.length ≤ 2 ∧ allDigits ds then
      let y := digitsVal ys
      let m := digitsVal ms
      let d := digitsVal ds
      let febDays : Nat :=
        if y % 4 = 0 ∧ (y % 100 ≠ 0 ∨ y % 400 = 0) then 29 else 28
      let dim : Nat :=
        if m = 2 then febDays
        else if m = 4 ∨ m = 6 ∨ m = 9 ∨ m = 11 then 30 else 31
      if 1 ≤ m ∧ m ≤ 12 ∧ 1 ≤ d ∧ d ≤ dim then some (y, m, d) else none
    else none
  | _ => none

/-- Time parsing done by `pd.to_datetime(..., format="%H:%M:%S")`: exactly
three `:`-separated fields of one or two ASCII digits, hours up to 23,
minutes up to 59 and seconds up to 61 (the strptime pattern pandas vendors
admits leap seconds, and the numpy datetime arithmetic rolls them over
rather than raising, so the resulting time-of-day is the normalized one).
`none` models the exception for a token outside this pattern. -/
def parseTime (s : String) : Option (Nat × Nat × Nat) :=
  match splitOnChar ':' s.data with
  | [hs, ms, ss] =>
    if hs ≠ [] ∧ hs.length ≤ 2 ∧ allDigits hs ∧
       ms ≠ [] ∧ ms.length ≤ 2 ∧ allDigits ms ∧
       ss ≠ [] ∧ ss.length ≤ 2 ∧ allDigits ss ∧
       digitsVal hs ≤ 23 ∧ digitsVal ms ≤ 59 ∧ digitsVal ss ≤ 61 then
      let total := (digitsVal hs * 3600 + digitsVal ms * 60 + digitsVal ss) % 86400
      some (total / 3600, total % 3600 / 60, total % 60)
    else none
  | _ => none

/-- The whole-token strings the pandas datetime converters turn into NaT
instead of parsing or raising: the empty string and the members of
`pandas._libs.tslibs.nattype.nat_strings`. -/
def natText (s : String) : Bool :=
  s = "" || s = "NaT" || s = "nat" || s = "NAT" ||
  s = "nan" || s = "NaN" || s = "NAN"

/-- The whole-token strings the pandas datetime converters special-case to
the current instant instead of parsing with the format. -/
def nowText (s : String) : Bool :=
  s = "now" || s = "today"

/-- `pd.to_datetime(column).dt.date` on one cell: a missing token becomes
NaT (stays missing, no error), and so does a present empty or NaT-text
token; a date in the ISO layout of this dataset parses.  The remaining
strings are modelled as raising; since `pd.to_datetime` is called here with
no `format`, its flexible parser in fact accepts further layouts
(`"2024/01/01"`, month names, `"now"`, ...), so no theorem below relies on
this raising branch for date tokens — the fatal-error claim is proved only
for the fixed-format time tokens. -/
def toDateCell : Cell → Option Cell
  | .missing => some .missing
  | .str s =>
    if natText s then some .missing
    else
      match parseDate s with
      | some (y, m, d) => some (.date y m d)
      | none => none
  | _ => none

/-- `pd.to_datetime(column, format="%H:%M:%S").dt.time` on one cell: a
missing token becomes NaT, and so does a present empty or NaT-text token
(pandas maps both to NaT before trying the format); a token matching the
`%H:%M:%S` pattern parses.  The remaining strings raise; the `now`/`today`
special cases and tokens written with non-ASCII digits (which the vendored
strptime pattern would still match) are modelled as raising too, so the
fatal-error theorem below additionally excludes them from its scope. -/
def toTimeCell : Cell → Option Cell
  | .missing => some .missing
  | .str s =>
    if natText s then some .missing
    else
      match parseTime s with
      | some (h, mi, sec) => some (.time h mi sec)
      | none => none
  | _ => none

/-- `process_datetime_columns` on one row: split both timestamps on spaces,
strip fractional seconds from the end-time token, convert, drop the combined
columns and install the renamed date/time columns. -/
def processDatetimeRow (r : Row) : Option SplitRow := do
  let sd ← toDateCell (r.chargingStartTime.splitPart 0)
  let st ← toTimeCell (r.chargingStartTime.splitPart 1)
  let ed ← toDateCell (r.chargingEndTime.splitPart 0)
  let et ← toTimeCell (dropFracCell (r.chargingEndTime.splitPart 1))
  some
    { vehicleModel := r.vehicleModel
      chargingStationLocation := r.chargingStationLocation
      timeOfDay := r.timeOfDay
      dayOfWeek := r.dayOfWeek
      chargerType := r.chargerType
      userType := r.userType
      chargingStartDate := sd
      chargingStartTime := st
      chargingEndDate := ed
      chargingEndTime := et
      stateOfChargeStartPct := r.stateOfChargeStartPct
      stateOfChargeEndPct := r.stateOfChargeEndPct
      chargingCostUSD := r.chargingCostUSD
      chargingStationId := r.chargingStationId
      chargingDurationHours := r.chargingDurationHours
      others := r.others }

/-- Apply a fallible per-row stage to the whole table; a pandas exception on
any row (`none`) aborts the stage. -/
def optMap (f : α → Option β) : List α → Option (List β)
  | [] => some []
  | a :: l =>
    match f a, optMap f l with
    | some b, some bs => some (b :: bs)
    | _, _ => none

/-- `process_datetime_columns` on the table. -/
def process_datetime_columns (t : List Row) : Option (List SplitRow) :=
  optMap processDatetimeRow t

/-- `Series.str.replace(pat, "")` with a literal one-character pattern:
remove every occurrence of the character. -/
def removeAllChar (c : Char) (s : String) : String :=
  ⟨s.data.filter (fun a => a ≠ c)⟩

/-- Python `float(s)` as invoked by `Series.astype(float)`, for the shapes in
this dataset: optional sign, plain decimal digits with an optional fractional
part, or the special text `nan` (any case) which parses to float NaN — a
missing value.  `none` models the `ValueError` that aborts the run.
(Exponents and infinities are not modelled; no claim exercises them.) -/
def pyFloat (s : String) : Option Cell :=
  let t := lowerList (pyStrip s.data)
  if t = "nan".data ∨ t = "+nan".data ∨ t = "-nan".data then some .missing
  else
    let (sign, body) : ℚ × List Char :=
      match t with
      | '-' :: r => (-1, r)
      | '+' :: r => (1, r)
      | r => (1, r)
    match splitOnChar '.' body with
    | [ip] =>
      if ip ≠ [] ∧ allDigits ip then some (.num (sign * digitsVal ip)) else none
    | [ip, fp] =>
      if allDigits ip ∧ allDigits fp ∧ (ip ≠ [] ∨ fp ≠ []) then
        some (.num (sign * ((digitsVal ip : ℚ) + (digitsVal fp : ℚ) / ((10 : ℚ) ^ fp.length))))
      else none
    | _ => none

/-- Pandas subtraction of two cells of a float column (NaN propagates;
subtraction involving non-numeric cells raises `TypeError`). -/
def Cell.sub : Cell → Cell → Option Cell
  | .num a, .num b => some (.num (a - b))
  | .missing, .num _ => some .missing
  | .num _, .missing => some .missing
  | .missing, .missing => some .missing
  | _, _ => none

/-- Pandas `column * 60` on one cell: floats multiply, NaN propagates,
Python strings repeat (`s * 60`), dates/times raise `TypeError`. -/
def Cell.mul60 : Cell → Option Cell
  | .num q => some (.num (q * 60))
  | .missing => some .missing
  | .str s => some (.str (String.join (List.replicate 60 s)))
  | _ => none

/-- `clean_symbols_and_features` on one row: strip `%` from the two
state-of-charge columns and `$` from the cost column and parse as float,
strip `S` from the station id keeping text, then derive
`ChargeDifference% = end − start` and `ChargingDurationMinutes = hours * 60`. -/
def cleanSymbolsRow (r : SplitRow) : Option FinalRow := do
  let socStart ← pyFloat (removeAllChar '%' r.stateOfChargeStartPct.pyStr)
  let socEnd ← pyFloat (removeAllChar '%' r.stateOfChargeEndPct.pyStr)
  let cost ← pyFloat (removeAllChar '$' r.chargingCostUSD.pyStr)
  let station := Cell.str (removeAllChar 'S' r.chargingStationId.pyStr)
  let diff ← Cell.sub socEnd socStart
  let minutes ← Cell.mul60 r.chargingDurationHours
  some
    { vehicleModel := r.vehicleModel
      chargingStationLocation := r.chargingStationLocation
      timeOfDay := r.timeOfDay
      dayOfWeek := r.dayOfWeek
      chargerType := r.chargerType
      userType := r.userType
      chargingStartDate := r.chargingStartDate
      chargingStartTime := r.chargingStartTime
      chargingEndDate := r.chargingEndDate
      chargingEndTime := r.chargingEndTime
      stateOfChargeStartPct := socStart
      stateOfChargeEndPct := socEnd
      chargingCostUSD := cost
      chargingStationId := station
      chargingDurationHours := r.chargingDurationHours
      chargeDifferencePct := diff
      chargingDurationMinutes := minutes
      others := r.others }

/-- `clean_symbols_and_features` on the table. -/
def clean_symbols_and_features (t : List SplitRow) : Option (List FinalRow) :=
  optMap cleanSymbolsRow t

/-- Whether a processed row still has a missing value in some column. -/
def finalRowHasNA (r : FinalRow) : Bool :=
  r.vehicleModel.isMissing || r.chargingStationLocation.isMissing ||
  r.timeOfDay.isMissing || r.dayOfWeek.isMissing ||
  r.chargerType.isMissing || r.userType.isMissing ||
  r.chargingStartDate.isMissing || r.chargingStartTime.isMissing ||
  r.chargingEndDate.isMissing || r.chargingEndTime.isMissing ||
  r.stateOfChargeStartPct.isMissing || r.stateOfChargeEndPct.isMissing ||
  r.chargingCostUSD.isMissing || r.chargingStationId.isMissing ||
  r.chargingDurationHours.isMissing || r.chargeDifferencePct.isMissing ||
  r.chargingDurationMinutes.isMissing || r.others.any Cell.isMissing

/-- The mutating part of the `main.py` pipeline from the cleaned-column step
on (`print_uniques_*`, `check_duplicates` and `check_outliers_iqr` only
print): clean categoricals, drop missing rows, split datetimes, strip
symbols and derive features.  `none` models an exception aborting the run. -/
def pipeline (t : List Row) : Option (List FinalRow) :=
  match process_datetime_columns (handle_missing_and_dropna (clean_categoricals_auto t)) with
  | none => none
  | some t3 => clean_symbols_and_features t3

/-- Insert into a sorted list (ascending). -/
def insertSorted (x : ℚ) : List ℚ → List ℚ
  | [] => [x]
  | y :: r => if x ≤ y then x :: y :: r else y :: insertSorted x r

/-- Sort ascending, as pandas does before interpolating a quantile. -/
def sortQ (l : List ℚ) : List ℚ := l.foldr insertSorted []

/-- `Series.quantile(p)` with the default linear interpolation between
closest ranks: with the values sorted ascending and `h = (n-1)·p`, the
result is `ys[⌊h⌋] + (h − ⌊h⌋)·(ys[⌊h⌋+1] − ys[⌊h⌋])`.  `none` on an empty
column (pandas yields NaN there).  `h ≥ 0` here, so the floor is `num/den`. -/
def quantileQ (xs : List ℚ) (p : ℚ) : Option ℚ :=
  match sortQ xs with
  | [] => none
  | _ :: _ =>
    let ys := sortQ xs
    let n := ys.length
    let h : ℚ := ((n : ℚ) - 1) * p
    let i : Nat := (h.num / (h.den : Int)).toNat
    let g : ℚ := h - (i : ℚ)
    let lo := ys.getD i 0
    let hi := ys.getD (min (i + 1) (n - 1)) 0
    some (lo + g * (hi - lo))

/-- The per-value test of `check_outliers_iqr` for one numeric column:
strictly below `Q1 − 1.5·IQR` or strictly above `Q3 + 1.5·IQR`. -/
def isOutlierIn (xs : List ℚ) (v : ℚ) : Bool :=
  match quantileQ xs (1/4), quantileQ xs (3/4) with
  | some q1, some q3 =>
    decide (v < q1 - 3/2 * (q3 - q1)) || decide (v > q3 + 3/2 * (q3 - q1))
  | _, _ => false

/-- `check_outliers_iqr` for one numeric column: the reported count is the
number of rows whose value in that column fails the IQR test. -/
def check_outliers_iqr (xs : List ℚ) : Nat :=
  (xs.filter (fun v => isOutlierIn xs v)).length

/-! ### Properties of the text primitives

These support the idempotence analysis of the categorical-cleaning stage:
the output of `normChars` is a fixed point of `normChars` unless it is the
literal `nan` or ends in `#`. -/

theorem lowerChar_idem (c : Char) : lowerChar (lowerChar c) = lowerChar c := by
  unfold lowerChar
  by_cases h : 65 ≤ c.toNat ∧ c.toNat ≤ 90
  · rw [dif_pos h, dif_neg]
    show ¬(65 ≤ c.toNat + 32 ∧ c.toNat + 32 ≤ 90)
    omega
  · rw [dif_neg h, dif_neg h]

theorem lowerChar_of_mem_lowerList {a : Char} {l : List Char}
    (h : a ∈ lowerList l) : lowerChar a = a := by
  obtain ⟨c, _, rfl⟩ := List.mem_map.1 h
  exact lowerChar_idem c

theorem lowerList_fix : ∀ {l : List Char}, (∀ a ∈ l, lowerChar a = a) → lowerList l = l
  | [], _ => rfl
  | c :: r, h => by
    have ih := lowerList_fix (l := r) (fun a ha => h a (List.mem_cons_of_mem _ ha))
    simp only [lowerList, List.map_cons] at ih ⊢
    rw [h c (List.mem_cons_self c r), ih]

theorem stripR_subset : ∀ {l : List Char} {a : Char}, a ∈ stripR l → a ∈ l
  | [], a, h => by simp [stripR] at h
  | c :: r, a, h => by
    cases h2 : stripR r with
    | nil =>
      simp only [stripR, h2] at h
      by_cases hc : isPySpace c = true
      · simp [hc] at h
      · simp only [Bool.not_eq_true] at hc
        simp [hc] at h
        simp [h]
    | cons d t =>
      simp only [stripR, h2] at h
      rcases List.mem_cons.1 h with rfl | h3
      · exact List.mem_cons_self _ _
      · exact List.mem_cons_of_mem _ (stripR_subset (h2 ▸ h3))

theorem stripR_cons_val (c : Char) (r : List Char) :
    stripR (c :: r) =
      match stripR r with
      | [] => if isPySpace c then [] else [c]
      | r2 => c :: r2 := rfl

theorem stripR_cons_eq {r : List Char} (h : stripR r = r) (hne : r ≠ []) (c : Char) :
    stripR (c :: r) = c :: r := by
  cases r with
  | nil => exact absurd rfl hne
  | cons d t => rw [stripR_cons_val, h]

theorem stripR_cons_self {c : Char} {r : List Char} (h : stripR (c :: r) = c :: r) :
    (r = [] ∧ isPySpace c = false) ∨ stripR r = r := by
  cases h2 : stripR r with
  | nil =>
    left
    rw [stripR_cons_val, h2] at h
    have h3 : (if isPySpace c then ([] : List Char) else [c]) = c :: r := h
    by_cases hc : isPySpace c = true
    · rw [if_pos hc] at h3
      exact absurd h3 (by simp)
    · rw [if_neg hc] at h3
      injection h3 with h4 h5
      simp only [Bool.not_eq_true] at hc
      exact ⟨h5.symm, hc⟩
  | cons d t =>
    right
    have h3 : stripR (c :: r) = c :: d :: t := by rw [stripR_cons_val, h2]
    rw [h3] at h
    injection h with h4 h5

theorem stripR_idem : ∀ (l : List Char), stripR (stripR l) = stripR l
  | [] => rfl
  | c :: r => by
    cases h2 : stripR r with
    | nil =>
      by_cases hc : isPySpace c = true
      · simp [stripR, h2, hc]
      · simp only [Bool.not_eq_true] at hc
        simp [stripR, h2, hc]
    | cons d t =>
      have ih := stripR_idem r
      rw [h2] at ih
      simp only [stripR, h2]
      exact stripR_cons_eq ih (by simp) c

theorem stripR_head : ∀ {l : List Char} {c : Char} {r : List Char},
    stripR l = c :: r → ∃ t, l = c :: t
  | [], c, r, h => by simp [stripR] at h
  | d :: t, c, r, h => by
    refine ⟨t, ?_⟩
    cases h2 : stripR t with
    | nil =>
      simp only [stripR, h2] at h
      by_cases hd : isPySpace d = true
      · simp [hd] at h
      · simp only [Bool.not_eq_true] at hd
        simp only [hd, if_false] at h
        simp at h
        rw [h.1]
    | cons e u =>
      simp only [stripR, h2] at h
      simp at h
      rw [h.1]

theorem stripR_eq_nil_of_all_ws : ∀ {l : List Char},
    (∀ a ∈ l, isPySpace a = true) → stripR l = []
  | [], _ => rfl
  | c :: r, h => by
    have ih := stripR_eq_nil_of_all_ws (fun a ha => h a (List.mem_cons_of_mem _ ha))
    simp [stripR, ih, h c (List.mem_cons_self c r)]

theorem collapse_subset : ∀ {l : List Char} {b : Bool} {a : Char},
    a ∈ collapseAux b l → a ∈ l ∨ a = ' '
  | [], _, a, h => by simp [collapseAux] at h
  | c :: r, b, a, h => by
    by_cases hc : isPySpace c = true
    · cases b with
      | true =>
        simp only [collapseAux, hc, if_true] at h
        rcases collapse_subset h with h3 | h3
        · exact Or.inl (List.mem_cons_of_mem _ h3)
        · exact Or.inr h3
      | false =>
        simp only [collapseAux, hc, if_true] at h
        rcases List.mem_cons.1 h with rfl | h3
        · exact Or.inr rfl
        · rcases collapse_subset h3 with h4 | h4
          · exact Or.inl (List.mem_cons_of_mem _ h4)
          · exact Or.inr h4
    · simp only [Bool.not_eq_true] at hc
      simp only [collapseAux, hc, Bool.false_eq_true, if_false] at h
      rcases List.mem_cons.1 h with rfl | h3
      · exact Or.inl (List.mem_cons_self _ _)
      · rcases collapse_subset h3 with h4 | h4
        · exact Or.inl (List.mem_cons_of_mem _ h4)
        · exact Or.inr h4

theorem collapse_false_eq_nil {l : List Char} (h : collapseAux false l = []) : l = [] := by
  cases l with
  | nil => rfl
  | cons c r =>
    by_cases hc : isPySpace c = true
    · simp [collapseAux, hc] at h
    · simp only [Bool.not_eq_true] at hc
      simp [collapseAux, hc] at h

theorem collapse_true_all_ws : ∀ {l : List Char},
    collapseAux true l = [] → ∀ a ∈ l, isPySpace a = true
  | [], _, a, ha => by simp at ha
  | c :: r, h, a, ha => by
    by_cases hc : isPySpace c = true
    · simp only [collapseAux, hc, if_true] at h
      rcases List.mem_cons.1 ha with rfl | h3
      · exact hc
      · exact collapse_true_all_ws h a h3
    · simp only [Bool.not_eq_true] at hc
      simp [collapseAux, hc] at h

theorem collapse_idem : ∀ (l : List Char) (b : Bool),
    collapseAux b (collapseAux b l) = collapseAux b l
  | [], _ => rfl
  | c :: r, b => by
    by_cases hc : isPySpace c = true
    · cases b with
      | true => simpa only [collapseAux, hc, if_true] using collapse_idem r true
      | false =>
        simp only [collapseAux, hc, if_true]
        have hsp : isPySpace ' ' = true := by decide
        simp only [collapseAux, hsp, if_true]
        rw [collapse_idem r true]
    · simp only [Bool.not_eq_true] at hc
      simp only [collapseAux, hc, Bool.false_eq_true, if_false]
      rw [collapse_idem r false]

theorem stripR_collapse : ∀ (l : List Char) (b : Bool), stripR l = l →
    stripR (collapseAux b l) = collapseAux b l
  | [], _, _ => rfl
  | c :: r, b, h => by
    rcases stripR_cons_self h with ⟨rfl, hc⟩ | hr
    · simp [collapseAux, hc, stripR]
    · by_cases hc : isPySpace c = true
      · have hrne : r ≠ [] := by
          rintro rfl
          simp [stripR, hc] at h
        have ih := stripR_collapse r true hr
        have hY : collapseAux true r ≠ [] := by
          intro hnil
          have hall := collapse_true_all_ws hnil
          have := stripR_eq_nil_of_all_ws hall
          rw [hr] at this
          exact hrne this
        cases b with
        | true => simpa only [collapseAux, hc, if_true] using ih
        | false =>
          simp only [collapseAux, hc, if_true]
          exact stripR_cons_eq ih hY ' '
      · simp only [Bool.not_eq_true] at hc
        have ih := stripR_collapse r false hr
        simp only [collapseAux, hc, Bool.false_eq_true, if_false]
        cases hX : collapseAux false r with
        | nil => simp [stripR, hX, hc]
        | cons d t =>
          rw [← hX]
          exact stripR_cons_eq ih (by simp [hX]) c

theorem pyStrip_subset {a : Char} {l : List Char} (h : a ∈ pyStrip l) : a ∈ l :=
  (List.dropWhile_sublist isPySpace).subset (stripR_subset h)

theorem dropTrailHash_subset {a : Char} {l : List Char} (h : a ∈ dropTrailHash l) :
    a ∈ l := by
  simp only [dropTrailHash, List.mem_reverse] at h
  exact List.mem_reverse.1 ((List.dropWhile_sublist _).subset h)

theorem dropTrailHash_fix {l : List Char} (h : l.reverse.head? ≠ some '#') :
    dropTrailHash l = l := by
  simp only [dropTrailHash]
  cases hrev : l.reverse with
  | nil =>
    have : l = [] := by simpa using congrArg List.reverse hrev
    simp [this]
  | cons c t =>
    have hc : ¬(c = '#') := by
      intro hcc
      exact h (by rw [hrev, hcc]; rfl)
    rw [List.dropWhile_cons, if_neg (by simpa using hc)]
    rw [← hrev, List.reverse_reverse]

theorem pyStrip_head {l c r} (h : pyStrip l = c :: r) : isPySpace c = false := by
  obtain ⟨t, ht⟩ := stripR_head h
  have := List.head?_dropWhile_not isPySpace l
  rw [ht] at this
  simpa using this

theorem pyStrip_stripR (l : List Char) : stripR (pyStrip l) = pyStrip l :=
  stripR_idem _

theorem pyStrip_fix {l : List Char} (h1 : stripR l = l)
    (h2 : ∀ c r, l = c :: r → isPySpace c = false) : pyStrip l = l := by
  have hdrop : l.dropWhile isPySpace = l := by
    cases l with
    | nil => rfl
    | cons c r => rw [List.dropWhile_cons, if_neg (by simp [h2 c r rfl])]
  simp only [pyStrip, hdrop, h1]

theorem collapse_false_head {v : List Char} {c : Char} {r : List Char}
    (hhead : ∀ d w, v = d :: w → isPySpace d = false)
    (h : collapseAux false v = c :: r) : isPySpace c = false := by
  cases v with
  | nil => simp [collapseAux] at h
  | cons d w =>
    have hd := hhead d w rfl
    simp only [collapseAux, hd, Bool.false_eq_true, if_false] at h
    injection h with h1 _
    rw [← h1]
    exact hd

/-- The output of the text normalizer is itself normalizer-stable, unless it
is the literal `nan` (which the normalizer maps to missing) or ends in a `#`
(which the normalizer strips).  This is the load-bearing fact behind the
idempotence of the categorical cleaning. -/
theorem normChars_fix {l t : List Char} (h : normChars l = some t)
    (h1 : t ≠ "nan".data) (h2 : t.reverse.head? ≠ some '#') :
    normChars t = some t := by
  simp only [normChars] at h
  by_cases hn : lowerList (pyStrip l) = "nan".data
  · rw [if_pos hn] at h
    exact absurd h (by simp)
  · rw [if_neg hn] at h
    have ht : t = collapseWS (pyStrip (dropTrailHash (lowerList (pyStrip l)))) :=
      (Option.some.inj h).symm
    set u := lowerList (pyStrip l) with hu
    set v := pyStrip (dropTrailHash u) with hv
    have hvStrip : stripR v = v := pyStrip_stripR _
    have htv : t = collapseAux false v := ht
    have htStrip : stripR t = t := by
      rw [htv]; exact stripR_collapse v false hvStrip
    have htHead : ∀ c r, t = c :: r → isPySpace c = false := by
      intro c r hcr
      refine collapse_false_head (v := v) ?_ (htv ▸ hcr)
      intro d w hdw
      exact pyStrip_head (hv.symm.trans hdw)
    have htFix : pyStrip t = t := pyStrip_fix htStrip htHead
    have hLower : lowerList t = t := by
      apply lowerList_fix
      intro a ha
      rw [htv] at ha
      rcases collapse_subset ha with hav | rfl
      · have hau : a ∈ u := dropTrailHash_subset (pyStrip_subset hav)
        exact lowerChar_of_mem_lowerList (hu ▸ hau)
      · decide
    have hCollapse : collapseWS t = t := by
      rw [htv]
      exact collapse_idem v false
    have hHash : dropTrailHash t = t := dropTrailHash_fix h2
    simp only [normChars, htFix, hLower, hHash, hCollapse]
    rw [if_neg h1]

/-! ### Idempotence analysis of `_clean_categorical_column` -/

theorem lookup_mem : ∀ {l : List (String × String)} {a b : String},
    l.lookup a = some b → (a, b) ∈ l
  | [], a, b, h => by simp [List.lookup] at h
  | (k, v) :: r, a, b, h => by
    by_cases hk : a = k
    · subst hk
      rw [List.lookup_cons_self] at h
      cases h
      exact List.mem_cons_self _ _
    · have hbeq : (a == k) = false := by simpa using hk
      simp only [List.lookup_cons, hbeq] at h
      exact List.mem_cons_of_mem _ (lookup_mem h)

/-- Decidable side conditions on an (alias, canonical) dictionary pair under
which cleaning one categorical column is well behaved: every canonical label
is a fixed point of the cleaner, every alias target has a canonical entry,
and `"unknown"` is a key of neither dictionary.  All six pairs of the source
satisfy these (checked by `decide` below). -/
def stableDicts (aliases canon : List (String × String)) : Bool :=
  canon.all (fun kv => decide (cleanCell aliases canon (.str kv.2) = .str kv.2)) &&
  aliases.all (fun kv => (canon.lookup kv.2).isSome) &&
  (aliases.lookup "unknown").isNone &&
  (canon.lookup "unknown").isNone

theorem unknown_shape (s : String) :
    unknownToMissing (.str s) = .missing ∨ unknownToMissing (.str s) = .str s := by
  by_cases h : s = "unknown" ∨ s = "Unknown"
  · left; simp [unknownToMissing, h]
  · right; simp [unknownToMissing, h]

theorem chain_str (aliases canon : List (String × String)) (n : String) :
    ∃ m : String, canonCell canon (aliasCell aliases (.str n)) = .str m := by
  cases ha : aliases.lookup n with
  | some a =>
    cases hcl : canon.lookup a with
    | some w => exact ⟨w, by simp [aliasCell, ha, canonCell, hcl]⟩
    | none => exact ⟨a, by simp [aliasCell, ha, canonCell, hcl]⟩
  | none =>
    cases hcl : canon.lookup n with
    | some w => exact ⟨w, by simp [aliasCell, ha, canonCell, hcl]⟩
    | none => exact ⟨n, by simp [aliasCell, ha, canonCell, hcl]⟩

theorem normalizeCell_eq_str {x : Cell} {s : String}
    (h : normalizeCell x = .str s) : normChars (Cell.pyStr x).data = some s.data := by
  cases x with
  | missing => simp [normalizeCell] at h
  | str t =>
    cases hn : normChars (Cell.pyStr (.str t)).data with
    | none =>
      simp only [normalizeCell, hn] at h
      exact absurd h (by simp)
    | some u =>
      simp only [normalizeCell, hn] at h
      injection h with h2
      rw [← h2]
  | num q =>
    cases hn : normChars (Cell.pyStr (.num q)).data with
    | none =>
      simp only [normalizeCell, hn] at h
      exact absurd h (by simp)
    | some u =>
      simp only [normalizeCell, hn] at h
      injection h with h2
      rw [← h2]
  | date y m d =>
    cases hn : normChars (Cell.pyStr (.date y m d)).data with
    | none =>
      simp only [normalizeCell, hn] at h
      exact absurd h (by simp)
    | some u =>
      simp only [normalizeCell, hn] at h
      injection h with h2
      rw [← h2]
  | time a b c =>
    cases hn : normChars (Cell.pyStr (.time a b c)).data with
    | none =>
      simp only [normalizeCell, hn] at h
      exact absurd h (by simp)
    | some u =>
      simp only [normalizeCell, hn] at h
      injection h with h2
      rw [← h2]

theorem normalizeCell_shape (x : Cell) :
    normalizeCell x = .missing ∨ ∃ s, normalizeCell x = .str s := by
  cases x with
  | missing => left; rfl
  | str t => cases hn : normChars (Cell.pyStr (.str t)).data <;> simp [normalizeCell, hn]
  | num q => cases hn : normChars (Cell.pyStr (.num q)).data <;> simp [normalizeCell, hn]
  | date y m d =>
    cases hn : normChars (Cell.pyStr (.date y m d)).data <;> simp [normalizeCell, hn]
  | time a b c =>
    cases hn : normChars (Cell.pyStr (.time a b c)).data <;> simp [normalizeCell, hn]

theorem cleanCell_cases (aliases canon : List (String × String)) (x : Cell) :
    cleanCell aliases canon x = .missing ∨ ∃ s, cleanCell aliases canon x = .str s := by
  simp only [cleanCell]
  rcases normalizeCell_shape (fillCell x) with hy | ⟨n, hy⟩
  · left
    rw [hy]
    simp [aliasCell, canonCell, unknownToMissing]
  · rw [hy]
    obtain ⟨m, hm⟩ := chain_str aliases canon n
    rw [hm]
    exact (unknown_shape m).imp id (fun h => ⟨m, h⟩)

theorem cleanCell_missing {aliases canon : List (String × String)}
    (h1 : aliases.lookup "unknown" = none) (h2 : canon.lookup "unknown" = none) :
    cleanCell aliases canon .missing = .missing := by
  have hnorm : normalizeCell (fillCell .missing) = .str "unknown" := by decide
  simp only [cleanCell, hnorm]
  simp [aliasCell, h1, canonCell, h2, unknownToMissing]

/-- Core idempotence fact: under the `stableDicts` side conditions, cleaning
a categorical cell twice agrees with cleaning it once, provided the cleaned
value is not a string the normalizer would rewrite again (the literal `nan`,
or a pass-through value ending in `#`). -/
theorem cleanCell_idem_of (aliases canon : List (String × String))
    (hgood : stableDicts aliases canon = true) (x : Cell)
    (hstr : ∀ s : String, cleanCell aliases canon x = .str s →
      s.data ≠ "nan".data ∧ s.data.reverse.head? ≠ some '#') :
    cleanCell aliases canon (cleanCell aliases canon x) = cleanCell aliases canon x := by
  simp only [stableDicts, Bool.and_eq_true, List.all_eq_true] at hgood
  obtain ⟨⟨⟨hstable, htargets⟩, hAu⟩, hCu⟩ := hgood
  have hAunk : aliases.lookup "unknown" = none := Option.isNone_iff_eq_none.mp hAu
  have hCunk : canon.lookup "unknown" = none := Option.isNone_iff_eq_none.mp hCu
  cases hc : cleanCell aliases canon x with
  | missing => exact cleanCell_missing hAunk hCunk
  | num q =>
    rcases cleanCell_cases aliases canon x with h | ⟨s, h⟩ <;> rw [hc] at h <;> simp at h
  | date y m d =>
    rcases cleanCell_cases aliases canon x with h | ⟨s, h⟩ <;> rw [hc] at h <;> simp at h
  | time a b c =>
    rcases cleanCell_cases aliases canon x with h | ⟨s, h⟩ <;> rw [hc] at h <;> simp at h
  | str s =>
    have hc0 := hc
    simp only [cleanCell] at hc0
    rcases normalizeCell_shape (fillCell x) with hy | ⟨n, hy⟩
    · rw [hy] at hc0
      simp [aliasCell, canonCell, unknownToMissing] at hc0
    · rw [hy] at hc0
      have hnorm : normChars (Cell.pyStr (fillCell x)).data = some n.data :=
        normalizeCell_eq_str hy
      cases ha : aliases.lookup n with
      | some a =>
        have hsome := htargets (n, a) (lookup_mem ha)
        cases hcl : canon.lookup a with
        | none => rw [hcl] at hsome; simp at hsome
        | some w =>
          simp only [aliasCell, ha, canonCell, hcl] at hc0
          have hws : w = s := by
            rcases unknown_shape w with h | h <;> rw [h] at hc0
            · exact absurd hc0 (by simp)
            · injection hc0 with h2
          have hst := hstable (a, w) (lookup_mem hcl)
          rw [decide_eq_true_eq] at hst
          rw [← hws]
          exact hst
      | none =>
        cases hcl : canon.lookup n with
        | some w =>
          simp only [aliasCell, ha, canonCell, hcl] at hc0
          have hws : w = s := by
            rcases unknown_shape w with h | h <;> rw [h] at hc0
            · exact absurd hc0 (by simp)
            · injection hc0 with h2
          have hst := hstable (n, w) (lookup_mem hcl)
          rw [decide_eq_true_eq] at hst
          rw [← hws]
          exact hst
        | none =>
          simp only [aliasCell, ha, canonCell, hcl] at hc0
          have hns : n = s := by
            rcases unknown_shape n with h | h <;> rw [h] at hc0
            · exact absurd hc0 (by simp)
            · injection hc0 with h2
          subst hns
          have hnu : ¬(n = "unknown" ∨ n = "Unknown") := by
            intro hor
            simp only [unknownToMissing, if_pos hor] at hc0
            exact absurd hc0 (by simp)
          have hcond := hstr n hc
          have hfix : normChars n.data = some n.data :=
            normChars_fix hnorm hcond.1 hcond.2
          obtain ⟨nd⟩ := n
          have hfix2 : normChars nd = some nd := by simpa using hfix
          have hnormn : normalizeCell (.str ⟨nd⟩) = .str ⟨nd⟩ := by
            simp [normalizeCell, Cell.pyStr, hfix2]
          simp only [cleanCell, fillCell, hnormn, aliasCell, ha, canonCell, hcl,
            unknownToMissing]
          rw [if_neg hnu]

/-! ### Plumbing lemmas for the table-level stages -/

theorem optMap_mem {α β : Type} {f : α → Option β} :
    ∀ {l : List α} {l2 : List β} {b : β},
      optMap f l = some l2 → b ∈ l2 → ∃ a, a ∈ l ∧ f a = some b
  | [], l2, b, h, hb => by
    simp only [optMap] at h
    injection h with h2
    subst h2
    simp at hb
  | a :: l, l2, b, h, hb => by
    cases hfa : f a with
    | none => simp [optMap, hfa] at h
    | some c =>
      cases hrest : optMap f l with
      | none => simp [optMap, hfa, hrest] at h
      | some cs =>
        simp only [optMap, hfa, hrest] at h
        injection h with h2
        subst h2
        rcases List.mem_cons.1 hb with rfl | hb2
        · exact ⟨a, List.mem_cons_self _ _, hfa⟩
        · obtain ⟨a2, ha2, hfa2⟩ := optMap_mem hrest hb2
          exact ⟨a2, List.mem_cons_of_mem _ ha2, hfa2⟩

theorem optMap_none {α β : Type} {f : α → Option β} :
    ∀ {l : List α} {a : α}, a ∈ l → f a = none → optMap f l = none
  | b :: l, a, ha, hfa => by
    rcases List.mem_cons.1 ha with rfl | ha2
    · simp [optMap, hfa]
    · have hrec := optMap_none (f := f) ha2 hfa
      cases hfb : f b <;> simp [optMap, hfb, hrec]

/-- A present (non-missing) date token that parses. -/
def tokenOkDate (x : Cell) : Bool :=
  match x with
  | .str s => (parseDate s).isSome
  | _ => false

/-- A present (non-missing) time token that parses. -/
def tokenOkTime (x : Cell) : Bool :=
  match x with
  | .str s => (parseTime s).isSome
  | _ => false

/-- The text parses to an actual float (not the NaN text, not an error). -/
def parsesToNum (s : String) : Bool :=
  match pyFloat s with
  | some (.num _) => true
  | _ => false

/-- Rows on which the post-drop stages cannot reintroduce a missing value:
both timestamps split into present, parseable date and time tokens, and the
three `%`/`$`-stripped numeric fields parse to actual numbers. -/
def wellFormedRow (r : Row) : Bool :=
  tokenOkDate (r.chargingStartTime.splitPart 0) &&
  tokenOkTime (r.chargingStartTime.splitPart 1) &&
  tokenOkDate (r.chargingEndTime.splitPart 0) &&
  tokenOkTime (dropFracCell (r.chargingEndTime.splitPart 1)) &&
  parsesToNum (removeAllChar '%' r.stateOfChargeStartPct.pyStr) &&
  parsesToNum (removeAllChar '%' r.stateOfChargeEndPct.pyStr) &&
  parsesToNum (removeAllChar '$' r.chargingCostUSD.pyStr)

theorem natText_parseDate {s : String} (h : natText s = true) : parseDate s = none := by
  simp only [natText, Bool.or_eq_true, decide_eq_true_eq] at h
  rcases h with ((((((h | h) | h) | h) | h) | h) | h) <;> subst h <;> decide

theorem natText_parseTime {s : String} (h : natText s = true) : parseTime s = none := by
  simp only [natText, Bool.or_eq_true, decide_eq_true_eq] at h
  rcases h with ((((((h | h) | h) | h) | h) | h) | h) <;> subst h <;> decide

theorem tokenOkDate_some {x : Cell} (h : tokenOkDate x = true) :
    ∃ y m d, toDateCell x = some (.date y m d) := by
  cases x with
  | str s =>
    simp only [tokenOkDate, Option.isSome_iff_exists] at h
    obtain ⟨⟨y, m, d⟩, hp⟩ := h
    have hnat : natText s = false := by
      cases hn : natText s
      · rfl
      · rw [natText_parseDate hn] at hp
        exact absurd hp (by simp)
    exact ⟨y, m, d, by simp [toDateCell, hnat, hp]⟩
  | missing => simp [tokenOkDate] at h
  | num q => simp [tokenOkDate] at h
  | date y m d => simp [tokenOkDate] at h
  | time a b c => simp [tokenOkDate] at h

theorem tokenOkTime_some {x : Cell} (h : tokenOkTime x = true) :
    ∃ a b c, toTimeCell x = some (.time a b c) := by
  cases x with
  | str s =>
    simp only [tokenOkTime, Option.isSome_iff_exists] at h
    obtain ⟨⟨a, b, c⟩, hp⟩ := h
    have hnat : natText s = false := by
      cases hn : natText s
      · rfl
      · rw [natText_parseTime hn] at hp
        exact absurd hp (by simp)
    exact ⟨a, b, c, by simp [toTimeCell, hnat, hp]⟩
  | missing => simp [tokenOkTime] at h
  | num q => simp [tokenOkTime] at h
  | date y m d => simp [tokenOkTime] at h
  | time a b c => simp [tokenOkTime] at h

theorem parsesToNum_some {s : String} (h : parsesToNum s = true) :
    ∃ q : ℚ, pyFloat s = some (.num q) := by
  unfold parsesToNum at h
  cases hp : pyFloat s with
  | none => rw [hp] at h; simp at h
  | some c =>
    cases c with
    | num q => exact ⟨q, rfl⟩
    | missing => rw [hp] at h; simp at h
    | str t => rw [hp] at h; simp at h
    | date y m d => rw [hp] at h; simp at h
    | time a b c => rw [hp] at h; simp at h

theorem mul60_not_missing {x y : Cell} (h : Cell.mul60 x = some y)
    (hx : x.isMissing = false) : y.isMissing = false := by
  cases x with
  | num q => injection h with h2; subst h2; rfl
  | str s => injection h with h2; subst h2; rfl
  | missing => simp [Cell.isMissing] at hx
  | date a b c => simp [Cell.mul60] at h
  | time a b c => simp [Cell.mul60] at h

/-- A present time token on which the fixed-format conversion genuinely
raises: non-empty ASCII text that is not one of the NaT strings (those
become NaT silently), not the `now`/`today` specials, and that fails the
`%H:%M:%S` pattern.  The ASCII restriction keeps tokens written with
non-ASCII digits — which the vendored strptime pattern would match — out of
the claimed fatal class. -/
def fatalTimeToken (x : Cell) : Bool :=
  match x with
  | .str s =>
    !natText s && !nowText s && s.data.all (fun c => c.toNat ≤ 127) &&
      (parseTime s).isNone
  | _ => false

/-- Some present time token of the row raises (for the end time, after
fractional-second stripping). -/
def hasFatalTimeToken (r : Row) : Bool :=
  fatalTimeToken (r.chargingStartTime.splitPart 1) ||
  fatalTimeToken (dropFracCell (r.chargingEndTime.splitPart 1))

theorem fatalTime_none {x : Cell} (h : fatalTimeToken x = true) : toTimeCell x = none := by
  cases x with
  | str s =>
    simp only [fatalTimeToken, Bool.and_eq_true, Bool.not_eq_true',
      Option.isNone_iff_eq_none] at h
    obtain ⟨⟨⟨hnat, _⟩, _⟩, hp⟩ := h
    simp [toTimeCell, hnat, hp]
  | missing => simp [fatalTimeToken] at h
  | num q => simp [fatalTimeToken] at h
  | date y m d => simp [fatalTimeToken] at h
  | time a b c => simp [fatalTimeToken] at h

theorem processDatetimeRow_none {r : Row} (h : hasFatalTimeToken r = true) :
    processDatetimeRow r = none := by
  simp only [hasFatalTimeToken, Bool.or_eq_true] at h
  rcases h with h | h
  · cases h0 : toDateCell (r.chargingStartTime.splitPart 0) <;>
      simp [processDatetimeRow, h0, fatalTime_none h]
  · cases h0 : toDateCell (r.chargingStartTime.splitPart 0) <;>
      cases h1 : toTimeCell (r.chargingStartTime.splitPart 1) <;>
      cases h2 : toDateCell (r.chargingEndTime.splitPart 0) <;>
      simp [processDatetimeRow, h0, h1, h2, fatalTime_none h]

/-! ### Concrete rows used by the counterexamples and witnesses -/

/-- A fully well-formed raw row (canonical category spellings, both
timestamps with date and `HH:MM:SS` time parts, `%`/`$`-formatted numeric
text, an `S`-prefixed station id). -/
def exRowOK : Row :=
  { vehicleModel := .str "Tesla Model 3"
    chargingStationLocation := .str "Chicago"
    timeOfDay := .str "Morning"
    dayOfWeek := .str "Monday"
    chargerType := .str "Level 1"
    userType := .str "Commuter"
    chargingStartTime := .str "2024-01-01 10:00:00"
    chargingEndTime := .str "2024-01-01 11:30:00.5"
    stateOfChargeStartPct := .str "20%"
    stateOfChargeEndPct := .str "80%"
    chargingCostUSD := .str "$10.50"
    chargingStationId := .str "S123"
    chargingDurationHours := .num (3/2)
    others := [.num 100] }

/-- The processed form of `exRowOK`. -/
def exFinalOK : FinalRow :=
  { vehicleModel := .str "Tesla Model 3"
    chargingStationLocation := .str "Chicago"
    timeOfDay := .str "Morning"
    dayOfWeek := .str "Monday"
    chargerType := .str "Level 1"
    userType := .str "Commuter"
    chargingStartDate := .date 2024 1 1
    chargingStartTime := .time 10 0 0
    chargingEndDate := .date 2024 1 1
    chargingEndTime := .time 11 30 0
    stateOfChargeStartPct := .num 20
    stateOfChargeEndPct := .num 80
    chargingCostUSD := .num (21/2)
    chargingStationId := .str "123"
    chargingDurationHours := .num (3/2)
    chargeDifferencePct := .num 60
    chargingDurationMinutes := .num 90
    others := [.num 100] }

/-- Like `exRowOK`, but the combined end timestamp has no space and hence no
time token. -/
def exRowEndNoSpace : Row :=
  { exRowOK with chargingEndTime := .str "2024-01-01" }

/-- Like `exRowOK`, but the combined start timestamp has no space. -/
def exRowStartNoSpace : Row :=
  { exRowOK with chargingStartTime := .str "2024-01-02" }

/-- Like `exRowOK`, but a doubled space in the start timestamp makes the
time token the present empty string. -/
def exRowDoubleSpace : Row :=
  { exRowOK with chargingStartTime := .str "2024-01-01  10:00:00" }

/-- Like `exRowOK`, but the start time token is not a valid `HH:MM:SS`
time (hour 25). -/
def exRowBadTime : Row :=
  { exRowOK with chargingStartTime := .str "2024-01-01 25:00:00" }

/-- Like `exRowOK`, but the vehicle-model cell is missing. -/
def exRowMissingVM : Row :=
  { exRowOK with vehicleModel := .missing }

/-- A row as it stands after the datetime split, with the raw symbol-laden
numeric text fields. -/
def exSplitRow : SplitRow :=
  { vehicleModel := .str "Tesla Model 3"
    chargingStationLocation := .str "Chicago"
    timeOfDay := .str "Morning"
    dayOfWeek := .str "Monday"
    chargerType := .str "Level 1"
    userType := .str "Commuter"
    chargingStartDate := .date 2024 1 1
    chargingStartTime := .time 10 0 0
    chargingEndDate := .date 2024 1 1
    chargingEndTime := .time 11 30 0
    stateOfChargeStartPct := .str "20%"
    stateOfChargeEndPct := .str "80%"
    chargingCostUSD := .str "$10.50"
    chargingStationId := .str "S123"
    chargingDurationHours := .num (3/2)
    others := [.num 100] }

/-- The result of `clean_symbols_and_features` on `exSplitRow`. -/
def exFinalRow : FinalRow :=
  { vehicleModel := .str "Tesla Model 3"
    chargingStationLocation := .str "Chicago"
    timeOfDay := .str "Morning"
    dayOfWeek := .str "Monday"
    chargerType := .str "Level 1"
    userType := .str "Commuter"
    chargingStartDate := .date 2024 1 1
    chargingStartTime := .time 10 0 0
    chargingEndDate := .date 2024 1 1
    chargingEndTime := .time 11 30 0
    stateOfChargeStartPct := .num 20
    stateOfChargeEndPct := .num 80
    chargingCostUSD := .num (21/2)
    chargingStationId := .str "123"
    chargingDurationHours := .num (3/2)
    chargeDifferencePct := .num 60
    chargingDurationMinutes := .num 90
    others := [.num 100] }

/-- A numeric column with first quartile 10 and third quartile 20, holding
both boundary probes of the outlier claim. -/
def exOutlierColumn : List ℚ := [10, 10, 10, 10, 10, 20, 20, 20, 35, 3501/100]

/-! ### The claims -/

/-- C2: for every key of each of the six alias dictionaries, any raw text
whose normalized form equals that key comes out of the
normalize → alias → canonical chain as exactly the canonical dictionary's
value for the alias's target key (which always has a canonical entry). -/
theorem c2_alias_roundtrip :
    ∀ p ∈ aliasCanonPairs, ∀ kv ∈ p.1, ∀ raw : String,
      normalizeCell (.str raw) = .str kv.1 →
      ∃ w, p.2.lookup kv.2 = some w ∧ aliasCanonChain p.1 p.2 raw = .str w := by
  intro p hp kv hkv raw hraw
  fin_cases hp <;> fin_cases hkv <;>
    exact ⟨_, rfl, by simp only [aliasCanonChain]; rw [hraw]; decide⟩

/-- C2 witness: the raw value `"Audi E-Tro  "` (trailing spaces) normalizes
to the alias key `"audi e-tro"` and comes out as `"Audi e-Tron"`. -/
theorem c2_alias_roundtrip_witness :
    ∃ w, VEHICLE_CANON.lookup "audi e-tron" = some w ∧
      aliasCanonChain VEHICLE_ALIASES VEHICLE_CANON "Audi E-Tro  " = .str w := by
  have h := c2_alias_roundtrip (VEHICLE_ALIASES, VEHICLE_CANON) (by decide)
    ("audi e-tro", "audi e-tron") (by decide) "Audi E-Tro  " (by decide)
  exact h

/-- C3 counterexample: the categorical cleaning is not idempotent as
claimed.  The raw cell `"nan##"` cleans to the literal string `"nan"`
(the `"nan"` test of the normalizer runs before `#`-stripping), and a
second pass maps that string to missing. -/
theorem c3_counterexample :
    cleanCell VEHICLE_ALIASES VEHICLE_CANON (.str "nan##") = .str "nan" ∧
    cleanCell VEHICLE_ALIASES VEHICLE_CANON
        (cleanCell VEHICLE_ALIASES VEHICLE_CANON (.str "nan##")) = .missing ∧
    cleanCell VEHICLE_ALIASES VEHICLE_CANON
        (cleanCell VEHICLE_ALIASES VEHICLE_CANON (.str "nan##")) ≠
      cleanCell VEHICLE_ALIASES VEHICLE_CANON (.str "nan##") := by
  refine ⟨by decide, by decide, ?_⟩
  decide

/-- C3 (amended): for each of the six dictionary pairs, a second application
of the per-column cleaner returns its input unchanged for every cell whose
cleaned value is not a string that the normalizer would rewrite again
(the literal `nan`, or a string ending in `#`). -/
theorem c3_clean_idem :
    ∀ p ∈ aliasCanonPairs, ∀ x : Cell,
      (∀ s : String, cleanCell p.1 p.2 x = .str s →
        s.data ≠ "nan".data ∧ s.data.reverse.head? ≠ some '#') →
      cleanCell p.1 p.2 (cleanCell p.1 p.2 x) = cleanCell p.1 p.2 x := by
  intro p hp x hstr
  refine cleanCell_idem_of p.1 p.2 ?_ x hstr
  fin_cases hp <;> decide

/-- C3 witness: cleaning `"Tesla Model##"` twice agrees with cleaning it
once (its cleaned value is the canonical label `"Tesla Model 3"`). -/
theorem c3_clean_idem_witness :
    cleanCell VEHICLE_ALIASES VEHICLE_CANON
        (cleanCell VEHICLE_ALIASES VEHICLE_CANON (.str "Tesla Model##")) =
      cleanCell VEHICLE_ALIASES VEHICLE_CANON (.str "Tesla Model##") := by
  refine c3_clean_idem (VEHICLE_ALIASES, VEHICLE_CANON) (by decide) _ ?_
  intro s h
  rw [show cleanCell VEHICLE_ALIASES VEHICLE_CANON (.str "Tesla Model##") =
      .str "Tesla Model 3" from by decide] at h
  injection h with h2
  subst h2
  exact ⟨by decide, by decide⟩

/-- C4: a value is counted as an outlier iff it is strictly below
`Q1 − 1.5·IQR` or strictly above `Q3 + 1.5·IQR`; on a column with `Q1 = 10`
and `Q3 = 20`, the boundary value 35 is not counted and 35.01 is. -/
theorem c4_outlier_iqr :
    (∀ (xs : List ℚ) (v q1 q3 : ℚ), quantileQ xs (1/4) = some q1 →
        quantileQ xs (3/4) = some q3 →
        (isOutlierIn xs v = true ↔
          (v < q1 - 3/2 * (q3 - q1) ∨ v > q3 + 3/2 * (q3 - q1))) ∧
        check_outliers_iqr xs =
          (xs.filter (fun v => decide (v < q1 - 3/2 * (q3 - q1)) ||
            decide (v > q3 + 3/2 * (q3 - q1)))).length) ∧
    (quantileQ exOutlierColumn (1/4) = some 10 ∧
      quantileQ exOutlierColumn (3/4) = some 20 ∧
      isOutlierIn exOutlierColumn 35 = false ∧
      isOutlierIn exOutlierColumn (3501/100) = true ∧
      check_outliers_iqr exOutlierColumn = 1) := by
  constructor
  · intro xs v q1 q3 h1 h3
    have e : ∀ w : ℚ, isOutlierIn xs w =
        (decide (w < q1 - 3/2 * (q3 - q1)) || decide (w > q3 + 3/2 * (q3 - q1))) := by
      intro w
      unfold isOutlierIn
      rw [h1, h3]
    constructor
    · rw [e v]
      simp
    · unfold check_outliers_iqr
      congr 1
      apply List.filter_congr
      intro a _
      rw [e a]
  · exact ⟨by decide, by decide, by decide, by decide, by decide⟩

/-- C4 witness: instantiating the outlier characterization on the concrete
column with quartiles 10 and 20 at the boundary probe 35. -/
theorem c4_outlier_iqr_witness :
    isOutlierIn exOutlierColumn 35 = true ↔
      ((35 : ℚ) < 10 - 3/2 * (20 - 10) ∨ (35 : ℚ) > 20 + 3/2 * (20 - 10)) :=
  ((c4_outlier_iqr.1 exOutlierColumn 35 10 20 (by decide) (by decide)).1)

/-- The normalization described by the specification sentence of C6, taken
literally and in its stated order: trim, lowercase, strip trailing `#`,
collapse internal whitespace — with no `"nan"` rule and no re-trim. -/
def normalizeClaimC6 (s : String) : Cell :=
  .str ⟨collapseWS (dropTrailHash (lowerList (pyStrip s.data)))⟩

/-- C6 counterexample: the source normalizer disagrees with the claimed
description on two counts.  The string `"nan"` (neither None nor float NaN)
is mapped to missing rather than returned as text, and `"a #"` is re-trimmed
after `#`-stripping (`"a"`), whereas the claimed transformation chain leaves
the exposed trailing space (`"a "`). -/
theorem c6_counterexample :
    normalizeClaimC6 "nan" = .str "nan" ∧ normalizeCell (.str "nan") = .missing ∧
    normalizeClaimC6 "a #" = .str "a " ∧ normalizeCell (.str "a #") = .str "a" := by
  refine ⟨by decide, by decide, by decide, by decide⟩

/-- C6 (amended): for a string input the normalizer returns the trimmed,
lowercased text with trailing `#` removed, re-trimmed, and whitespace runs
collapsed — except that a string whose trimmed lowercase form is the literal
`nan` short-circuits to missing, exactly as None and float NaN do. -/
theorem c6_normalize_description :
    normalizeCell .missing = .missing ∧
    ∀ s : String,
      normalizeCell (.str s) =
        if lowerList (pyStrip s.data) = "nan".data then Cell.missing
        else .str ⟨collapseWS (pyStrip (dropTrailHash (lowerList (pyStrip s.data))))⟩ := by
  refine ⟨rfl, fun s => ?_⟩
  by_cases h : lowerList (pyStrip s.data) = "nan".data
  · simp [normalizeCell, Cell.pyStr, normChars, h]
  · simp [normalizeCell, Cell.pyStr, normChars, h]

/-- C7: a missing cell fed to the four-stage categorical cleaning chain of
any of the six columns stays missing, and a row missing in one categorical
column (whatever its other columns hold) is removed by the unconditional
missing-row drop. -/
theorem c7_missing_preserved :
    (∀ p ∈ aliasCanonPairs, cleanCell p.1 p.2 .missing = .missing) ∧
    ∀ (t : List Row) (r : Row), r ∈ t →
      (r.vehicleModel.isMissing || r.chargingStationLocation.isMissing ||
        r.timeOfDay.isMissing || r.dayOfWeek.isMissing ||
        r.chargerType.isMissing || r.userType.isMissing) = true →
      r ∉ handle_missing_and_dropna t := by
  constructor
  · intro p hp
    fin_cases hp <;> decide
  · intro t r _ hcat hcontra
    have h2 := (List.mem_filter.mp hcontra).2
    have hNA : rowHasNA r = true := by
      simp only [Bool.or_eq_true] at hcat
      simp only [rowHasNA, Bool.or_eq_true]
      tauto
    rw [hNA] at h2
    simp at h2

/-- C7 witness: the missing marker survives the vehicle-model chain as
missing, and the concrete row missing only its vehicle model is dropped. -/
theorem c7_missing_preserved_witness :
    cleanCell VEHICLE_ALIASES VEHICLE_CANON .missing = .missing ∧
    exRowMissingVM ∉ handle_missing_and_dropna [exRowMissingVM] := by
  constructor
  · exact c7_missing_preserved.1 (VEHICLE_ALIASES, VEHICLE_CANON) (by decide)
  · exact c7_missing_preserved.2 [exRowMissingVM] exRowMissingVM
      (List.mem_singleton.mpr rfl) (by decide)

/-- C8: the symbol-stripping stage maps `"20%"` to the float 20.0, `"$10.50"`
to the float 10.5, and `"S123"` to the text `"123"`. -/
theorem c8_symbol_strip :
    (cleanSymbolsRow exSplitRow).map
        (fun fr => (fr.stateOfChargeStartPct, fr.chargingCostUSD, fr.chargingStationId)) =
      some (.num 20, .num (21/2), .str "123") := by decide

/-- C9: in every row the symbol stage produces, `ChargeDifference%` is the
(pandas) difference of the end and start state-of-charge cells and
`ChargingDurationMinutes` is the hours cell times 60; on numeric cells this
is exact rational arithmetic. -/
theorem c9_features :
    ∀ (sr : SplitRow) (fr : FinalRow), cleanSymbolsRow sr = some fr →
      (Cell.sub fr.stateOfChargeEndPct fr.stateOfChargeStartPct =
          some fr.chargeDifferencePct ∧
        Cell.mul60 fr.chargingDurationHours = some fr.chargingDurationMinutes) ∧
      ∀ a b q : ℚ, fr.stateOfChargeStartPct = .num a →
        fr.stateOfChargeEndPct = .num b → fr.chargingDurationHours = .num q →
        fr.chargeDifferencePct = .num (b - a) ∧
          fr.chargingDurationMinutes = .num (q * 60) := by
  intro sr fr h
  simp only [cleanSymbolsRow, bind, Option.bind_eq_some] at h
  obtain ⟨s1, h1, s2, h2, c1, h3, d0, hd0, m0, hm0, hfr⟩ := h
  injection hfr with hfr
  subst hfr
  refine ⟨⟨hd0, hm0⟩, ?_⟩
  intro a b q ha hb hq
  have ha2 : s1 = Cell.num a := ha
  have hb2 : s2 = Cell.num b := hb
  have hq2 : sr.chargingDurationHours = Cell.num q := hq
  subst ha2
  subst hb2
  rw [hq2] at hm0
  simp only [Cell.sub] at hd0
  simp only [Cell.mul60] at hm0
  injection hd0 with hd1
  injection hm0 with hm1
  exact ⟨hd1.symm, hm1.symm⟩

/-- C9 witness: start 20.0 and end 80.0 give difference 60.0, and hours 1.5
gives minutes 90.0, on the concrete processed row. -/
theorem c9_features_witness :
    exFinalRow.chargeDifferencePct = .num 60 ∧
      exFinalRow.chargingDurationMinutes = .num 90 := by
  have h := (c9_features exSplitRow exFinalRow (by decide)).2 20 80 (3/2)
    (by decide) (by decide) (by decide)
  exact ⟨h.1.trans (by decide), h.2.trans (by decide)⟩

/-- C10 counterexample: the cell `"nan#"` satisfies the claimed condition —
after trimming, lowercasing, `#`-stripping and whitespace collapsing its
text equals `"nan"` — yet the cleaning stage leaves it as the literal
string `"nan"`, not a missing marker (the normalizer's `"nan"` test runs
before `#`-stripping). -/
theorem c10_counterexample :
    collapseWS (pyStrip (dropTrailHash (lowerList (pyStrip "nan#".data)))) = "nan".data ∧
    cleanCell VEHICLE_ALIASES VEHICLE_CANON (.str "nan#") = .str "nan" ∧
    Cell.str "nan" ≠ Cell.missing := by
  refine ⟨by decide, by decide, by decide⟩

/-- C10 (amended): a cell whose trimmed lowercased text is the literal `nan`
(before `#`-stripping), or whose fully normalized text is `unknown`, is
turned into a missing marker by each of the six column cleaners; and any row
holding a missing value is removed by the unconditional missing-row drop. -/
theorem c10_unknown_nan_to_missing :
    (∀ p ∈ aliasCanonPairs, ∀ s : String,
      lowerList (pyStrip s.data) = "nan".data ∨ normChars s.data = some "unknown".data →
      cleanCell p.1 p.2 (.str s) = .missing) ∧
    ∀ (t : List Row) (r : Row), rowHasNA r = true → r ∉ handle_missing_and_dropna t := by
  constructor
  · intro p hp s hcase
    rcases hcase with hnan | hunk
    · have hnorm : normalizeCell (.str s) = .missing := by
        simp [normalizeCell, Cell.pyStr, normChars, hnan]
      simp [cleanCell, fillCell, hnorm, aliasCell, canonCell, unknownToMissing]
    · have hnorm : normalizeCell (.str s) = .str ⟨"unknown".data⟩ := by
        simp only [normalizeCell, Cell.pyStr, hunk]
      fin_cases hp <;> simp only [cleanCell, fillCell, hnorm] <;> decide
  · intro t r hNA hcontra
    have h2 := (List.mem_filter.mp hcontra).2
    rw [hNA] at h2
    simp at h2

/-- C10 witness: the populated cell `" UNKNOWN## "` normalizes to `unknown`
and is turned into a missing marker by the vehicle-model cleaner. -/
theorem c10_unknown_nan_to_missing_witness :
    cleanCell VEHICLE_ALIASES VEHICLE_CANON (.str " UNKNOWN## ") = .missing :=
  c10_unknown_nan_to_missing.1 (VEHICLE_ALIASES, VEHICLE_CANON) (by decide)
    " UNKNOWN## " (Or.inr (by decide))

theorem isMissing_date (y m d : Nat) : (Cell.date y m d).isMissing = false := rfl

theorem isMissing_time (a b c : Nat) : (Cell.time a b c).isMissing = false := rfl

theorem isMissing_num (q : ℚ) : (Cell.num q).isMissing = false := rfl

theorem isMissing_str (s : String) : (Cell.str s).isMissing = false := rfl

/-- C5 counterexample: neither a start timestamp without the expected
tokens (`"2024-01-02"`, no space — the time token is absent) nor one with a
doubled space (`"2024-01-01  10:00:00"` — the time token is the present
empty string) aborts the datetime stage; both rows succeed with a silently
missing start-time value (NaT), where the claim demands a fatal error. -/
theorem c5_counterexample :
    (process_datetime_columns [exRowStartNoSpace, exRowDoubleSpace]).map
        (fun l => l.map (fun sr => sr.chargingStartTime)) =
      some [Cell.missing, Cell.missing] := by
  decide

/-- C5 (amended): a present start- or end-time token that is non-empty
ASCII text, not one of pandas' NaT strings and not the `now`/`today`
specials, and that fails the `%H:%M:%S` expectation, is a fatal error that
aborts the whole run (no per-row recovery).  But a row whose combined
timestamp lacks the expected tokens does not raise: an absent time token
(no space) or a present empty/NaT-text one silently becomes a missing time
value.  No fatality is claimed for date tokens, which go through the
flexible no-format `pd.to_datetime` parser. -/
theorem c5_datetime_fatal :
    (∀ (t : List Row) (r : Row), r ∈ t → hasFatalTimeToken r = true →
      process_datetime_columns t = none) ∧
    ∀ (r : Row) (sr : SplitRow), processDatetimeRow r = some sr →
      (r.chargingStartTime.splitPart 1 = .missing ∨
        ∃ s, r.chargingStartTime.splitPart 1 = .str s ∧ natText s = true) →
      sr.chargingStartTime = .missing := by
  constructor
  · intro t r hmem hbad
    exact optMap_none hmem (processDatetimeRow_none hbad)
  · intro r sr h hcase
    have htc : toTimeCell (r.chargingStartTime.splitPart 1) = some Cell.missing := by
      rcases hcase with hmiss | ⟨s, hs, hnat⟩
      · rw [hmiss]
        rfl
      · rw [hs]
        simp [toTimeCell, hnat]
    simp only [processDatetimeRow, bind, Option.bind_eq_some] at h
    obtain ⟨sd, hsd, st, hst, ed, hed, et, het, hsr⟩ := h
    have h2 := hst.symm.trans htc
    injection hsr with hsr
    subst hsr
    show st = Cell.missing
    exact Option.some.inj h2

/-- C5 witness: a row with start time token `"25:00:00"` — present,
non-empty ASCII, no NaT text, but not a valid `%H:%M:%S` time — makes the
datetime stage abort the whole run. -/
theorem c5_datetime_fatal_witness :
    process_datetime_columns [exRowBadTime] = none :=
  c5_datetime_fatal.1 [exRowBadTime] exRowBadTime (List.mem_singleton.mpr rfl) (by decide)

/-- C1 counterexample: the pipeline completes (no exception) on a table
whose end timestamp lacks a time token, and the resulting single row DOES
contain a missing value — the datetime split reintroduces one after the
drop step. -/
theorem c1_counterexample :
    (pipeline [exRowEndNoSpace]).map (fun out => out.map finalRowHasNA) =
      some [true] := by
  decide

/-- C1 (amended): if the pipeline completes, then no row of the result has a
missing value in any column, PROVIDED every row that survives the
missing-row drop is well formed: its timestamps split into present,
parseable date and time tokens and its `%`/`$` numeric fields parse to
actual numbers (rather than the float-NaN text). -/
theorem c1_pipeline_no_missing :
    ∀ (t : List Row) (out : List FinalRow), pipeline t = some out →
      (∀ r ∈ handle_missing_and_dropna (clean_categoricals_auto t),
        wellFormedRow r = true) →
      ∀ fr ∈ out, finalRowHasNA fr = false := by
  intro t out hpipe hwf fr hfr
  simp only [pipeline] at hpipe
  cases hdt : process_datetime_columns (handle_missing_and_dropna (clean_categoricals_auto t)) with
  | none => rw [hdt] at hpipe; simp at hpipe
  | some t3 =>
    rw [hdt] at hpipe
    have hsym : clean_symbols_and_features t3 = some out := hpipe
    simp only [clean_symbols_and_features] at hsym
    simp only [process_datetime_columns] at hdt
    obtain ⟨sr, hsrmem, hsr⟩ := optMap_mem hsym hfr
    obtain ⟨r, hrmem, hrproc⟩ := optMap_mem hdt hsrmem
    have hwfr := hwf r hrmem
    have hNAfalse : rowHasNA r = false := by
      have h2 : r ∈ clean_categoricals_auto t ∧ rowHasNA r = false := by
        simpa [handle_missing_and_dropna] using hrmem
      exact h2.2
    simp only [rowHasNA, Bool.or_eq_false_iff] at hNAfalse
    obtain ⟨⟨⟨⟨⟨⟨⟨⟨⟨⟨⟨⟨⟨hm1, hm2⟩, hm3⟩, hm4⟩, hm5⟩, hm6⟩, hm7⟩, hm8⟩,
      hm9⟩, hm10⟩, hm11⟩, hm12⟩, hm13⟩, hm14⟩ := hNAfalse
    simp only [wellFormedRow, Bool.and_eq_true] at hwfr
    obtain ⟨⟨⟨⟨⟨⟨hd1, ht1⟩, hd2⟩, ht2⟩, hp1⟩, hp2⟩, hp3⟩ := hwfr
    obtain ⟨y1, mo1, d1, hsdv⟩ := tokenOkDate_some hd1
    obtain ⟨a1, b1, c1, hstv⟩ := tokenOkTime_some ht1
    obtain ⟨y2, mo2, d2, hedv⟩ := tokenOkDate_some hd2
    obtain ⟨a2, b2, c2, hetv⟩ := tokenOkTime_some ht2
    obtain ⟨q1, hq1⟩ := parsesToNum_some hp1
    obtain ⟨q2, hq2⟩ := parsesToNum_some hp2
    obtain ⟨q3, hq3⟩ := parsesToNum_some hp3
    simp only [processDatetimeRow, bind, Option.bind_eq_some] at hrproc
    obtain ⟨sd, hsd, st, hst, ed, hed, et, het, hsreq⟩ := hrproc
    rw [hsdv] at hsd
    injection hsd with hsd
    rw [hstv] at hst
    injection hst with hst
    rw [hedv] at hed
    injection hed with hed
    rw [hetv] at het
    injection het with het
    subst hsd hst hed het
    injection hsreq with hsreq
    subst hsreq
    simp only [cleanSymbolsRow, bind, Option.bind_eq_some] at hsr
    obtain ⟨s1, hs1, s2, hs2, cc, hcc, d0, hd0, m0, hm0, hfreq⟩ := hsr
    have hs1v : s1 = Cell.num q1 := by
      have h2 := hs1.symm.trans hq1
      injection h2 with h3
    have hs2v : s2 = Cell.num q2 := by
      have h2 := hs2.symm.trans hq2
      injection h2 with h3
    have hccv : cc = Cell.num q3 := by
      have h2 := hcc.symm.trans hq3
      injection h2 with h3
    subst hs1v hs2v hccv
    simp only [Cell.sub] at hd0
    injection hd0 with hd0v
    have hmm0 : m0.isMissing = false := mul60_not_missing hm0 hm13
    injection hfreq with hfreq
    subst hfreq
    simp [finalRowHasNA, isMissing_date, isMissing_time, isMissing_num,
      isMissing_str, hm1, hm2, hm3, hm4, hm5, hm6, ← hd0v, hmm0, hm13, hm14]

/-- C1 witness: on a one-row table whose row is well formed, the pipeline
completes and its output row has no missing value. -/
theorem c1_pipeline_no_missing_witness : finalRowHasNA exFinalOK = false := by
  have hp : pipeline [exRowOK] = some [exFinalOK] := by decide
  exact c1_pipeline_no_missing [exRowOK] [exFinalOK] hp (by decide) exFinalOK
    (List.mem_singleton.mpr rfl)
